import Mathlib

/-!
Shallow embedding of the ParserNew bankruptcy-registry crawler
(src/source/main.py, src/source/services/bankrupt_parser_service.py,
src/source/services/database_service.py, src/source/handlers/format_handler.py).

Python strings are modelled as lists of characters, the SQLite tables as
lists of records, the dynamic site as explicit environments (functions from
the number of load-more clicks to the visible content), and the monotonic
clock as rational-valued timestamps.  Unbounded while-loops get an explicit
fuel parameter.  The cooperative stop flag is modelled as never set (no stop
request during the run).
-/

/-- Python `str` modelled as its list of characters. -/
abbrev Str := List Char

/-- Python `s.startswith(p)`. -/
def startswith (s p : Str) : Bool :=
  match p with
  | [] => true
  | q :: ps =>
    match s with
    | [] => false
    | c :: cs => (c == q) && startswith cs ps

/-- The literal "http" tested by format_url. -/
def httpLit : Str := "http".toList

/-- Python `sub in s` substring test. -/
def pyIn (sub : Str) : Str → Bool
  | [] => startswith [] sub
  | c :: rest => startswith (c :: rest) sub || pyIn sub rest

/-- Python `s.strip()` (leading and trailing whitespace removed). -/
def pyStrip (s : Str) : Str :=
  ((s.dropWhile Char.isWhitespace).reverse.dropWhile Char.isWhitespace).reverse

/-- src/source/handlers/format_handler.py, `format_url(url, start)`:
returns `start + url` when `url` does not start with "http", else `url`. -/
def format_url (url : Str) (start : Str) : Str :=
  if startswith url httpLit = false then start ++ url else url

/-- Value of a nonempty all-digit string, base 10; `none` otherwise. -/
def digitsVal (s : Str) : Option Nat :=
  if s = [] then none
  else if s.all Char.isDigit then
    some (s.foldl (fun a c => a * 10 + (c.toNat - 48)) 0)
  else none

/-- Python `int(s)`: whitespace stripped, an optional sign, then decimal
digits; `none` models the `ValueError` raise. -/
def pyInt (s : Str) : Option Int :=
  match pyStrip s with
  | '+' :: rest => (digitsVal rest).map (fun n => (n : Int))
  | '-' :: rest => (digitsVal rest).map (fun n => -(n : Int))
  | t => (digitsVal t).map (fun n => (n : Int))

/-- Decimal rendering of an integer, as SQLite renders a bound INTEGER
value when TEXT affinity is applied to it for a comparison. -/
def intToStr (n : Int) : Str := (toString n).toList

/-- One row of the `organizations` table
(src/source/services/database_service.py, create_organizations_table).
`dateOfCheck` holds the calendar date of the write as an ordinal; the
`DateOfCheck` text produced by the missing `handlers/datetime_handler.py`
is modelled from the spec (`lastCheckedAt`: timestamp updated on every
write, its date part readable back by `strptime`). -/
structure OrgRec where
  inn : Str
  status : Int
  url : Option Str
  regionId : Int
  dateOfCheck : Nat
deriving DecidableEq

/-- One row of the `regions` table. -/
structure RegionRec where
  id : Int
  name : Str
  status : Int
deriving DecidableEq

/-- DatabaseService.insert_organization: `INSERT OR REPLACE` keyed by the
primary key INN — the conflicting row is deleted and the fresh row stored
with `DateOfCheck = current_time()` (`now`). -/
def insert_organization (db : List OrgRec) (inn : Str) (status : Int)
    (url : Option Str) (regionId : Int) (now : Nat) : List OrgRec :=
  ⟨inn, status, url, regionId, now⟩ :: db.filter (fun r => r.inn ≠ inn)

/-- DatabaseService.get_organization: `SELECT ... WHERE INN = ?` with a
Python `int` bound.  The INN column has TEXT affinity, so SQLite converts
the bound integer to its decimal text before comparing.  `some` is the
fetched row, `none` the empty list the method returns. -/
def get_organization (db : List OrgRec) (innVal : Int) : Option OrgRec :=
  db.find? (fun r => r.inn = intToStr innVal)

/-- DatabaseService.get_organization_date_of_check: `SELECT DateOfCheck ...
WHERE INN = ?` with the inn string bound directly; the stored date is
returned already in parsed form (see `OrgRec.dateOfCheck`). -/
def get_organization_date_of_check (db : List OrgRec) (inn : Str) : Option Nat :=
  (db.find? (fun r => r.inn = inn)).map (fun r => r.dateOfCheck)

/-- DatabaseService.get_region_status: returns the fetched row (`some`,
a nonempty tuple holding the Status column) when the region exists, and
Python `False` (`none`) otherwise.  Note the row itself is returned, not
the Status value. -/
def get_region_status (db : List RegionRec) (id : Int) : Option Int :=
  (db.find? (fun r => r.id = id)).map (fun r => r.status)

/-- Python truthiness of the value returned by get_region_status: a fetched
row is a nonempty tuple, hence truthy whatever Status it holds; `False` is
falsy. -/
def regionRowTruthy : Option Int → Bool
  | some _ => true
  | none => false

-- ### page environments and the card parser

/-- One entry ("info-item") of the popup page's inline "Публикации" list.
`dateVal` is the calendar date shown on the entry's name line, already as
an ordinal (`none` models text `strptime` cannot parse); `valueText` the
text of the "info-item-value" div when that div is present; `anchorHref`
the href of the entry's "underlined" anchor when such an anchor (carrying
an href) is present. -/
structure InlinePub where
  dateVal : Option Nat
  valueText : Option Str
  anchorHref : Option Str
deriving DecidableEq

/-- One "entity-card-publications-search-result-card" of the
all-publications page: the text of the title div when present (its "item-1"
wrapper is assumed present, as on the real page) and the href of the
"underlined" link when present. -/
structure AllPub where
  titleText : Option Str
  linkHref : Option Str
deriving DecidableEq

/-- Rendered state of a card's popup page together with the dynamic
all-publications page behind its "all info" link: `pubsAt k` is the list of
cards visible there after `k` load-more clicks, `buttonOk k` whether that
page's load-more control is visible and enabled at that point. -/
structure PopupEnv where
  inlinePubs : List InlinePub
  allInfoHref : Option Str
  pubsAt : Nat → List AllPub
  buttonOk : Nat → Bool

/-- A rendered result card of the region listing: the raw text of its
procedural-status div and of its INN span (parse_card strips them), plus
its popup page. -/
structure CardEnv where
  statusText : Str
  innText : Str
  popup : PopupEnv

/-- Navigations issued by the crawl session: a load_page call or an
expect_popup interaction. -/
inductive NavEvent
  | load (url : Str)
  | popup
deriving DecidableEq

/-- The dict `{"inn", "status", "url"}` parse_card returns. -/
structure CrawlRes where
  inn : Str
  status : Int
  url : Option Str
deriving DecidableEq

/-- How a parse_card call ends: a normal return (`ret`, carrying the dict
or Python None), or the stale-data QuitException escaping to the caller.
Modelled from the spec: `handlers/exceptions.py` (the QuitException class)
is missing from src; per the spec the stale-data exception is an explicit
non-error control signal, caught by the caller's dedicated handler and
distinct from a true failure, so it is not absorbed by parse_card's
generic card-level exception handler. -/
inductive CardOutcome
  | ret (r : Option CrawlRes)
  | quit
deriving DecidableEq

/-- Result of one parse_card call: its outcome, the navigations it issued,
and whether its generic handler logged at error severity. -/
structure CardRun where
  outcome : CardOutcome
  navs : List NavEvent
  errorLogged : Bool
deriving DecidableEq

/-- The tracked procedural-status label. -/
def targetLabel : Str := "Конкурсное производство".toList

/-- The target legal-notice phrase. -/
def targetPhrase : Str := "субсидиарной ответственности".toList

/-- Base prepended to relative publication links. -/
def fedresursBase : Str := "https://fedresurs.ru".toList

/-- Python `organization and organization[1] == 0` over the value of
get_organization. -/
def orgResolvedHit (db : List OrgRec) (n : Int) : Bool :=
  match get_organization db n with
  | some r => decide (r.status = 0)
  | none => false

/-- Inline-publication check: the entry has an "info-item-value" div whose
stripped text contains the target phrase. -/
def inlineMatch (p : InlinePub) : Bool :=
  match p.valueText with
  | some t => pyIn targetPhrase (pyStrip t)
  | none => false

/-- The inline for-loop over last_publications: the first matching entry
that also carries an "underlined" anchor gives the publication url (the
loop keeps scanning when the anchor is missing). -/
def inlineUrl : List InlinePub → Option Str
  | [] => none
  | p :: rest =>
    if inlineMatch p then
      match p.anchorHref with
      | some h => some (format_url h fedresursBase)
      | none => inlineUrl rest
    else inlineUrl rest

/-- All-publications card check: title div present and its stripped text
contains the target phrase. -/
def allPubMatch (p : AllPub) : Bool :=
  match p.titleText with
  | some t => pyIn targetPhrase (pyStrip t)
  | none => false

/-- The for-loop over the visible all-publications cards. -/
def allPubsUrl : List AllPub → Option Str
  | [] => none
  | p :: rest =>
    if allPubMatch p then
      match p.linkHref with
      | some h => some (format_url h fedresursBase)
      | none => allPubsUrl rest
    else allPubsUrl rest

/-- The while-True pagination loop on the all-publications page
(BankruptParserService.parse_card): scan the visible cards; on a match stop
with the url; otherwise click "load more" when it is visible and enabled,
and stop when the click does not increase the number of visible cards, or
when the control is unavailable.  `k` counts clicks already made; `fuel`
bounds the unbounded loop; the returned Nat counts loop-body entries. -/
def paginationLoop (env : PopupEnv) : Nat → Nat → Option Str × Nat
  | 0, _ => (none, 0)
  | fuel + 1, k =>
    match allPubsUrl (env.pubsAt k) with
    | some u => (some u, 1)
    | none =>
      if env.buttonOk k then
        if (env.pubsAt (k + 1)).length ≤ (env.pubsAt k).length then (none, 1)
        else
          let r := paginationLoop env fuel (k + 1)
          (r.1, r.2 + 1)
      else (none, 1)

/-- Resolution stage of parse_card after the date guard: inline list first,
then the all-publications fallback (a fresh load_page navigation); status 1
exactly when no url was resolved. -/
def parseCardResolve (popup : PopupEnv) (inn : Str) (fuel : Nat) : CardRun :=
  match inlineUrl popup.inlinePubs with
  | some u =>
    { outcome := .ret (some ⟨inn, 0, some u⟩), navs := [NavEvent.popup],
      errorLogged := false }
  | none =>
    match popup.allInfoHref with
    | none =>
      { outcome := .ret (some ⟨inn, 1, none⟩), navs := [NavEvent.popup],
        errorLogged := false }
    | some h =>
      match (paginationLoop popup fuel 0).1 with
      | none =>
        { outcome := .ret (some ⟨inn, 1, none⟩),
          navs := [NavEvent.popup, NavEvent.load (format_url h fedresursBase)],
          errorLogged := false }
      | some u =>
        { outcome := .ret (some ⟨inn, 0, some u⟩),
          navs := [NavEvent.popup, NavEvent.load (format_url h fedresursBase)],
          errorLogged := false }

/-- Stage of parse_card entered right after the popup navigation: with
check_publication_date set, read the first inline publication's date
(IndexError on an empty list and unparsable date text fall to the generic
handler, which logs at error severity), fetch the cached DateOfCheck, and
raise QuitException when the fresh date is strictly older. -/
def parseCardPopup (checkDate : Bool) (db : List OrgRec) (popup : PopupEnv)
    (inn : Str) (fuel : Nat) : CardRun :=
  if checkDate then
    match popup.inlinePubs.head? with
    | none => { outcome := .ret none, navs := [NavEvent.popup], errorLogged := true }
    | some p0 =>
      match p0.dateVal with
      | none => { outcome := .ret none, navs := [NavEvent.popup], errorLogged := true }
      | some pubDate =>
        match get_organization_date_of_check db inn with
        | some dc =>
          if pubDate < dc then
            { outcome := .quit, navs := [NavEvent.popup], errorLogged := false }
          else parseCardResolve popup inn fuel
        | none => parseCardResolve popup inn fuel
  else parseCardResolve popup inn fuel

/-- BankruptParserService.parse_card: eligibility filter on the stripped
procedural-status text, INN extraction, the Decision-Cache short-circuit
(through int(inn)), then popup navigation, date guard and resolution.
`ret none` is the Python None return; failures caught by the generic
handler set errorLogged. -/
def parse_card (checkDate : Bool) (db : List OrgRec) (env : CardEnv)
    (fuel : Nat) : CardRun :=
  if pyStrip env.statusText ≠ targetLabel then
    { outcome := .ret none, navs := [], errorLogged := false }
  else
    match pyInt (pyStrip env.innText) with
    | none => { outcome := .ret none, navs := [], errorLogged := true }
    | some n =>
      if orgResolvedHit db n then
        { outcome := .ret none, navs := [], errorLogged := false }
      else parseCardPopup checkDate db env.popup (pyStrip env.innText) fuel

-- ### region crawl orchestrator (ParserThread.parse)

/-- Python truthiness of `result["url"]`: non-None and nonempty. -/
def urlTruthy : Option Str → Bool
  | some u => decide (u ≠ [])
  | none => false

/-- The ParserThread configuration the card loop uses: the
check_publication_date flag and `url_template.format(region_id)`. -/
structure Config where
  checkDate : Bool
  urlOf : Int → Str

/-- Site behavior of one region's listing page: `rounds k` are the cards
visible in round `k` (after `k` load-more clicks on the listing; re-renders
may repeat earlier cards), and `loadMoreOk k` whether the listing's
load-more button is visible and enabled then. -/
structure RegionEnv where
  regionId : Int
  rounds : Nat → List CardEnv
  loadMoreOk : Nat → Bool

/-- Transient state of one region pass of ParserThread.parse: the
run-scoped dedup set, the stream of emitted Crawl Results (with their
region id), the INNs for which an email dispatch was made, the navigations
issued, and the new_cards_processed progress flag. -/
structure RoundState where
  processed : List Str
  emitted : List (CrawlRes × Int)
  emails : List Str
  navs : List NavEvent
  newCards : Bool

/-- Per-card body of the region loop: run parse_card; the dedicated
QuitException handler and the generic handler both log and continue; a
fresh result whose INN is outside the dedup set is recorded, emitted via
result_signal and, when its url is truthy, emailed. -/
def processCard (cfg : Config) (db : List OrgRec) (rid : Int) (pcFuel : Nat)
    (st : RoundState) (c : CardEnv) : RoundState :=
  let run := parse_card cfg.checkDate db c pcFuel
  let st1 : RoundState := { st with navs := st.navs ++ run.navs }
  match run.outcome with
  | CardOutcome.quit => st1
  | CardOutcome.ret none => st1
  | CardOutcome.ret (some r) =>
    if r.inn ∈ st1.processed then st1
    else
      { st1 with
        processed := r.inn :: st1.processed,
        emitted := st1.emitted ++ [(r, rid)],
        emails := st1.emails ++ (if urlTruthy r.url then [r.inn] else []),
        newCards := true }

/-- The while-loop of a region pass: process the cards visible in round
`k`; when the listing's load-more control is available and the round
processed at least one new card, click and continue, else stop.  `fuel`
bounds the loop, `pcFuel` is the fuel handed to parse_card's inner
pagination. -/
def regionRounds (cfg : Config) (db : List OrgRec) (env : RegionEnv) :
    Nat → Nat → Nat → RoundState → RoundState
  | 0, _, _, st => st
  | fuel + 1, pcFuel, k, st =>
    let st1 := (env.rounds k).foldl (processCard cfg db env.regionId pcFuel)
      { st with newCards := false }
    if env.loadMoreOk k then
      if st1.newCards then regionRounds cfg db env fuel pcFuel (k + 1) st1
      else st1
    else st1

/-- State at the start of a region pass: listing page loaded (one load_page
navigation), empty dedup set. -/
def initialRegionState (cfg : Config) (rid : Int) : RoundState :=
  { processed := [], emitted := [], emails := [],
    navs := [NavEvent.load (cfg.urlOf rid)], newCards := false }

/-- One iteration of ParserThread.parse's region loop: consult the
persisted region status (skipping only when the returned value is falsy),
then load the listing page and run the pass. -/
def parseRegion (cfg : Config) (db : List OrgRec) (regions : List RegionRec)
    (env : RegionEnv) (fuel pcFuel : Nat) : RoundState :=
  if regionRowTruthy (get_region_status regions env.regionId) = false then
    { processed := [], emitted := [], emails := [], navs := [], newCards := false }
  else regionRounds cfg db env fuel pcFuel 0 (initialRegionState cfg env.regionId)

/-- ParserThread.parse over the configured run list (no stop request, no
region-level failure). -/
def parseRun (cfg : Config) (db : List OrgRec) (regions : List RegionRec)
    (tasks : List RegionEnv) (fuel pcFuel : Nat) : List (Int × RoundState) :=
  tasks.map (fun env => (env.regionId, parseRegion cfg db regions env fuel pcFuel))

-- ### rate limiting (BankruptParserService.load_page)

/-- Outcome of the rate-limit prelude of load_page: how long the caller
slept, the dispatch timestamp of the navigation, and the value written back
to the shared last_request_time field. -/
structure DispatchOut where
  sleep : ℚ
  dispatch : ℚ
  newLast : ℚ
deriving DecidableEq

/-- Rate-limit prelude of BankruptParserService.load_page, against an ideal
monotonic clock reading `now`: with a positive request_interval, sleep for
the remaining delta when less than the interval elapsed since
last_request_time, then store the fresh clock reading; with a
non-positive interval the whole block is skipped and the shared field is
left untouched. -/
def rateLimitStep (interval lastRequestTime now : ℚ) : DispatchOut :=
  if 0 < interval then
    if now - lastRequestTime < interval then
      { sleep := interval - (now - lastRequestTime),
        dispatch := now + (interval - (now - lastRequestTime)),
        newLast := now + (interval - (now - lastRequestTime)) }
    else { sleep := 0, dispatch := now, newLast := now }
  else { sleep := 0, dispatch := now, newLast := lastRequestTime }

/-- Dedup invariant of one region pass (claim C5): emitted INNs and
emailed INNs are duplicate-free and recorded in the dedup set. -/
def DedupInv (st : RoundState) : Prop :=
  (st.emitted.map (fun e => e.1.inn)).Nodup ∧ st.emails.Nodup ∧
  (∀ i, i ∈ st.emitted.map (fun e => e.1.inn) → i ∈ st.processed) ∧
  (∀ i, i ∈ st.emails → i ∈ st.processed)

-- ### concrete inputs used in closed evaluations

/-- Popup page with no publications and no all-info link. -/
def popupEmpty : PopupEnv :=
  { inlinePubs := [], allInfoHref := none,
    pubsAt := fun _ => [], buttonOk := fun _ => false }

/-- Inline publication dated day 10, non-matching text, no anchor. -/
def pubStale : InlinePub := ⟨some 10, some "нет".toList, none⟩

/-- Eligible card with INN "123" whose popup shows `pubStale` first. -/
def cardStale : CardEnv :=
  { statusText := "Конкурсное производство".toList,
    innText := "123".toList,
    popup := { inlinePubs := [pubStale], allInfoHref := none,
               pubsAt := fun _ => [], buttonOk := fun _ => false } }

/-- Cache row for INN "123": ACTIVE, checked at day 20. -/
def dbStale : List OrgRec := [⟨"123".toList, 1, none, 7, 20⟩]

/-- A thread configuration with the date check on. -/
def cfgW : Config := ⟨true, fun _ => "https://example".toList⟩

/-- An empty pass state. -/
def stW : RoundState := ⟨[], [], [], [], false⟩

/-- Card with a non-tracked procedural status. -/
def cardWrongStatus : CardEnv :=
  { statusText := "Наблюдение".toList, innText := "123".toList,
    popup := popupEmpty }

/-- All-publications card whose title does not match the target phrase. -/
def pubNM : AllPub := ⟨some "прочее".toList, none⟩

/-- Popup whose all-publications page always shows the one non-matching
card and whose load-more control never adds cards. -/
def envC4 : PopupEnv :=
  { inlinePubs := [], allInfoHref := some "/pubs".toList,
    pubsAt := fun _ => [pubNM], buttonOk := fun _ => true }

/-- Cache row keyed by the leading-zero identifier "0123", RESOLVED. -/
def dbLeadZero : List OrgRec := [⟨"0123".toList, 0, none, 7, 20⟩]

/-- Eligible card carrying the leading-zero INN "0123". -/
def cardLeadZero : CardEnv :=
  { statusText := "Конкурсное производство".toList,
    innText := "0123".toList, popup := popupEmpty }

/-- Cache row for INN "123", RESOLVED. -/
def dbResolved : List OrgRec := [⟨"123".toList, 0, none, 7, 20⟩]

/-- Eligible card with the canonical INN "123" and an empty popup. -/
def cardCanon : CardEnv :=
  { statusText := "Конкурсное производство".toList,
    innText := "123".toList, popup := popupEmpty }

/-- Eligible card with INN "456" and an empty popup. -/
def cardActive : CardEnv :=
  { statusText := "Конкурсное производство".toList,
    innText := "456".toList, popup := popupEmpty }

/-- Thread configuration with the date check off. -/
def cfgW5 : Config := ⟨false, fun _ => "https://example".toList⟩

/-- Region 7 listing showing `cardActive` once, no load-more. -/
def envW5 : RegionEnv := ⟨7, fun _ => [cardActive], fun _ => false⟩

/-- Regions table with region 7 enabled. -/
def regionsW5 : List RegionRec := [⟨7, "Регион".toList, 1⟩]

/-- The single run output of the `envW5` pass. -/
def outW5 : Int × RoundState := (7, parseRegion cfgW5 [] regionsW5 envW5 1 1)

/-- Regions table with region 5 disabled (Status = 0). -/
def regionsDisabled : List RegionRec := [⟨5, "Регион".toList, 0⟩]

/-- Region 5 listing with no cards. -/
def envRegion5 : RegionEnv := ⟨5, fun _ => [], fun _ => false⟩

/-- Thread configuration used for the region-skip evaluation. -/
def cfgC1 : Config :=
  ⟨true, fun _ => "https://bankrot.fedresurs.ru/bankrupts?regionId=5".toList⟩

-- ### helper lemmas

theorem startswith_append (s t p : Str) (h : startswith s p = true) :
    startswith (s ++ t) p = true := by
  induction p generalizing s with
  | nil => simp [startswith]
  | cons c cs ih =>
    cases s with
    | nil => simp [startswith] at h
    | cons a as =>
      simp only [startswith, Bool.and_eq_true] at h
      simp only [List.cons_append, startswith, Bool.and_eq_true]
      exact ⟨h.1, ih as h.2⟩

theorem startswith_eq_false_of_not_true (s p : Str)
    (h : ¬ startswith s p = true) : startswith s p = false := by
  cases hb : startswith s p
  · rfl
  · exact absurd hb h

theorem filter_ne_then_eq_nil (inn : Str) (l : List OrgRec) :
    (l.filter (fun r => r.inn ≠ inn)).filter (fun r => r.inn = inn) = [] := by
  induction l with
  | nil => rfl
  | cons a l ih =>
    by_cases h : a.inn = inn
    · simp [List.filter_cons, h, ih]
    · simp [List.filter_cons, h, ih]

theorem allPubsUrl_eq_none (l : List AllPub)
    (h : ∀ p ∈ l, allPubMatch p = false) : allPubsUrl l = none := by
  induction l with
  | nil => rfl
  | cons p rest ih =>
    have hp : allPubMatch p = false := h p (List.mem_cons_self p rest)
    simp only [allPubsUrl, hp, Bool.false_eq_true, if_false]
    exact ih (fun q hq => h q (List.mem_cons_of_mem p hq))

theorem bool_eq_false_of_not (b : Bool) (h : ¬ b = true) : b = false := by
  cases b
  · rfl
  · exact absurd rfl h

theorem parseCardResolve_outcome (popup : PopupEnv) (inn : Str) (fuel : Nat) :
    (parseCardResolve popup inn fuel).outcome ≠ CardOutcome.quit := by
  unfold parseCardResolve
  repeat' split
  all_goals simp

theorem popup_mem_parseCardResolve (popup : PopupEnv) (inn : Str) (fuel : Nat) :
    NavEvent.popup ∈ (parseCardResolve popup inn fuel).navs := by
  unfold parseCardResolve
  repeat' split
  all_goals simp

theorem popup_mem_parseCardPopup (cd : Bool) (db : List OrgRec)
    (popup : PopupEnv) (inn : Str) (fuel : Nat) :
    NavEvent.popup ∈ (parseCardPopup cd db popup inn fuel).navs := by
  unfold parseCardPopup
  repeat' split
  all_goals first
    | exact popup_mem_parseCardResolve popup inn fuel
    | simp

theorem parseCardPopup_quit_noError (cd : Bool) (db : List OrgRec)
    (popup : PopupEnv) (inn : Str) (fuel : Nat) :
    (parseCardPopup cd db popup inn fuel).outcome = CardOutcome.quit →
    (parseCardPopup cd db popup inn fuel).errorLogged = false := by
  unfold parseCardPopup
  repeat' split
  all_goals first
    | exact fun h => absurd h (parseCardResolve_outcome popup inn fuel)
    | exact fun _ => rfl
    | (intro h; simp at h)

theorem parse_card_quit_noError (cd : Bool) (db : List OrgRec) (env : CardEnv)
    (fuel : Nat) :
    (parse_card cd db env fuel).outcome = CardOutcome.quit →
    (parse_card cd db env fuel).errorLogged = false := by
  unfold parse_card
  repeat' split
  all_goals first
    | exact parseCardPopup_quit_noError cd db env.popup (pyStrip env.innText) fuel
    | (intro h; simp at h)

theorem processCard_quit (cfg : Config) (db : List OrgRec) (rid : Int)
    (pcFuel : Nat) (st : RoundState) (c : CardEnv)
    (h : (parse_card cfg.checkDate db c pcFuel).outcome = CardOutcome.quit) :
    processCard cfg db rid pcFuel st c =
      { st with navs := st.navs ++ (parse_card cfg.checkDate db c pcFuel).navs } := by
  simp only [processCard, h]

theorem processCard_dedupInv (cfg : Config) (db : List OrgRec) (rid : Int)
    (pcFuel : Nat) (st : RoundState) (c : CardEnv) (h : DedupInv st) :
    DedupInv (processCard cfg db rid pcFuel st c) := by
  obtain ⟨h1, h2, h3, h4⟩ := h
  cases ho : (parse_card cfg.checkDate db c pcFuel).outcome with
  | quit => simp only [processCard, ho]; exact ⟨h1, h2, h3, h4⟩
  | ret r =>
    cases r with
    | none => simp only [processCard, ho]; exact ⟨h1, h2, h3, h4⟩
    | some res =>
      simp only [processCard, ho]
      by_cases hmem : res.inn ∈ st.processed
      · simp only [if_pos hmem]; exact ⟨h1, h2, h3, h4⟩
      · simp only [if_neg hmem]
        refine ⟨?_, ?_, ?_, ?_⟩
        · simp only [List.map_append, List.map_cons, List.map_nil]
          rw [List.nodup_append]
          refine ⟨h1, List.nodup_singleton _, ?_⟩
          intro a ha hb
          simp only [List.mem_singleton] at hb
          subst hb
          exact hmem (h3 _ ha)
        · by_cases hurl : urlTruthy res.url = true
          · simp only [hurl, if_true]
            rw [List.nodup_append]
            refine ⟨h2, List.nodup_singleton _, ?_⟩
            intro a ha hb
            simp only [List.mem_singleton] at hb
            subst hb
            exact hmem (h4 _ ha)
          · have hf : urlTruthy res.url = false :=
              bool_eq_false_of_not _ hurl
            simp only [hf, Bool.false_eq_true, if_false, List.append_nil]
            exact h2
        · intro i hi
          simp only [List.map_append, List.map_cons, List.map_nil,
            List.mem_append, List.mem_singleton] at hi
          rcases hi with hi | hi
          · exact List.mem_cons_of_mem _ (h3 i hi)
          · subst hi; exact List.mem_cons_self _ _
        · intro i hi
          by_cases hurl : urlTruthy res.url = true
          · simp only [hurl, if_true, List.mem_append, List.mem_singleton] at hi
            rcases hi with hi | hi
            · exact List.mem_cons_of_mem _ (h4 i hi)
            · subst hi; exact List.mem_cons_self _ _
          · have hf : urlTruthy res.url = false :=
              bool_eq_false_of_not _ hurl
            simp only [hf, Bool.false_eq_true, if_false, List.append_nil] at hi
            exact List.mem_cons_of_mem _ (h4 i hi)

theorem foldl_dedupInv (cfg : Config) (db : List OrgRec) (rid : Int)
    (pcFuel : Nat) (cards : List CardEnv) :
    ∀ st : RoundState, DedupInv st →
      DedupInv (cards.foldl (processCard cfg db rid pcFuel) st) := by
  induction cards with
  | nil => intro st h; exact h
  | cons c rest ih =>
    intro st h
    rw [List.foldl_cons]
    exact ih _ (processCard_dedupInv cfg db rid pcFuel st c h)

theorem regionRounds_dedupInv (cfg : Config) (db : List OrgRec)
    (env : RegionEnv) :
    ∀ fuel pcFuel k st, DedupInv st →
      DedupInv (regionRounds cfg db env fuel pcFuel k st) := by
  intro fuel
  induction fuel with
  | zero => intro pcFuel k st h; exact h
  | succ f ih =>
    intro pcFuel k st h
    simp only [regionRounds]
    have hst1 : DedupInv ((env.rounds k).foldl
        (processCard cfg db env.regionId pcFuel) { st with newCards := false }) :=
      foldl_dedupInv cfg db env.regionId pcFuel (env.rounds k)
        { st with newCards := false } h
    split
    · split
      · exact ih pcFuel (k + 1) _ hst1
      · exact hst1
    · exact hst1

-- ### claim theorems (C9, C10)

/-- C9: upserting the same `(inn, status, url, region_id)` tuple twice via
insert_organization leaves exactly one record for that inn, carrying the
inserted Status, URL and RegionId, and the DateOfCheck of the latest
write (last-write-wins replace-by-key). -/
theorem c9_upsert_idempotent (db : List OrgRec) (inn : Str) (status : Int)
    (url : Option Str) (regionId : Int) (t1 t2 : Nat) :
    ((insert_organization (insert_organization db inn status url regionId t1)
        inn status url regionId t2).filter (fun r => r.inn = inn)) =
      [⟨inn, status, url, regionId, t2⟩] := by
  simp [insert_organization, List.filter_cons, filter_ne_then_eq_nil inn]

/-- C10: format_url returns `url` unchanged when it starts with "http" and
`base ++ url` otherwise; when the base starts with "http" the result always
starts with "http", and format_url is idempotent in its first argument. -/
theorem c10_format_url (url base : Str)
    (hbase : startswith base httpLit = true) :
    format_url url base =
      (if startswith url httpLit = true then url else base ++ url) ∧
    startswith (format_url url base) httpLit = true ∧
    format_url (format_url url base) base = format_url url base := by
  by_cases h : startswith url httpLit = true
  · refine ⟨?_, ?_, ?_⟩
    · simp [format_url, h]
    · simp [format_url, h]
    · simp [format_url, h]
  · have h' : startswith url httpLit = false :=
      startswith_eq_false_of_not_true url httpLit h
    have happ : startswith (base ++ url) httpLit = true :=
      startswith_append base url _ hbase
    refine ⟨?_, ?_, ?_⟩
    · simp [format_url, h']
    · simpa [format_url, h'] using happ
    · simp [format_url, h', happ]

/-- Witness for C10 at a concrete input. -/
theorem c10_format_url_witness :
    startswith "https://fedresurs.ru".toList httpLit = true ∧
    (format_url "/card/1".toList "https://fedresurs.ru".toList =
        (if startswith "/card/1".toList httpLit = true then "/card/1".toList
         else "https://fedresurs.ru".toList ++ "/card/1".toList) ∧
      startswith (format_url "/card/1".toList "https://fedresurs.ru".toList)
        httpLit = true ∧
      format_url (format_url "/card/1".toList "https://fedresurs.ru".toList)
          "https://fedresurs.ru".toList =
        format_url "/card/1".toList "https://fedresurs.ru".toList) :=
  ⟨by decide, c10_format_url _ _ (by decide)⟩

-- ### claim theorems (C1..C8)

/-- C1 (code-bug evidence): region 5's persisted record has Status = 0,
yet get_region_status returns the fetched row — a nonempty tuple, truthy
in Python — so ParserThread.parse does not take its skip branch and issues
the region's listing navigation anyway. -/
theorem c1_disabled_region_not_skipped :
    get_region_status regionsDisabled 5 = some 0 ∧
    regionRowTruthy (get_region_status regionsDisabled 5) = true ∧
    (parseRegion cfgC1 [] regionsDisabled envRegion5 1 1).navs =
      [NavEvent.load (cfgC1.urlOf 5)] := by
  refine ⟨by decide, by decide, by decide⟩

/-- C2: with check_publication_date enabled, a cached DateOfCheck for the
card's identifier and a freshly parsed most-recent publication date
strictly older than it, card processing raises the stale-data
QuitException; the orchestrator's card step then emits no Crawl Result and
dispatches no email for the card, and since organizations writes are the
consumer's per-result upserts of the emitted stream, no organizations
write happens for it. -/
theorem c2_stale_date_guard (db : List OrgRec) (env : CardEnv) (n : Int)
    (p0 : InlinePub) (pd dc : Nat) (fuel : Nat)
    (helig : pyStrip env.statusText = targetLabel)
    (hint : pyInt (pyStrip env.innText) = some n)
    (hmiss : orgResolvedHit db n = false)
    (hhead : env.popup.inlinePubs.head? = some p0)
    (hdate : p0.dateVal = some pd)
    (hdc : get_organization_date_of_check db (pyStrip env.innText) = some dc)
    (hlt : pd < dc) :
    (parse_card true db env fuel).outcome = CardOutcome.quit ∧
    ∀ cfg : Config, cfg.checkDate = true → ∀ rid pcFuel st,
      (processCard cfg db rid pcFuel st env).emitted = st.emitted ∧
      (processCard cfg db rid pcFuel st env).emails = st.emails := by
  have key : ∀ f : Nat, parse_card true db env f =
      { outcome := CardOutcome.quit, navs := [NavEvent.popup],
        errorLogged := false } := by
    intro f
    simp [parse_card, parseCardPopup, helig, hint, hmiss, hhead, hdate, hdc, hlt]
  refine ⟨by rw [key fuel], ?_⟩
  intro cfg hcd rid pcFuel st
  have hq : (parse_card cfg.checkDate db env pcFuel).outcome =
      CardOutcome.quit := by
    rw [hcd, key pcFuel]
  rw [processCard_quit cfg db rid pcFuel st env hq]
  exact ⟨rfl, rfl⟩

/-- Witness for C2 at a concrete stale card (cached day 20, fresh day 10). -/
theorem c2_stale_date_guard_witness :
    (pyStrip cardStale.statusText = targetLabel ∧
     pyInt (pyStrip cardStale.innText) = some 123 ∧
     orgResolvedHit dbStale 123 = false ∧
     cardStale.popup.inlinePubs.head? = some pubStale ∧
     pubStale.dateVal = some 10 ∧
     get_organization_date_of_check dbStale (pyStrip cardStale.innText) = some 20 ∧
     10 < 20) ∧
    (parse_card true dbStale cardStale 1).outcome = CardOutcome.quit ∧
    (processCard cfgW dbStale 7 1 stW cardStale).emitted = stW.emitted ∧
    (processCard cfgW dbStale 7 1 stW cardStale).emails = stW.emails := by
  have h := c2_stale_date_guard dbStale cardStale 123 pubStale 10 20 1
    (by decide) (by decide) (by decide) (by decide) (by decide) (by decide)
    (by decide)
  exact ⟨⟨by decide, by decide, by decide, by decide, by decide, by decide,
    by decide⟩, h.1, (h.2 cfgW rfl 7 1 stW).1, (h.2 cfgW rfl 7 1 stW).2⟩

/-- C3: a QuitException outcome of card processing is a skip distinct from
a true failure: parse_card's generic handler has not logged at error
severity, and the caller's dedicated QuitException handler leaves the pass
state unchanged apart from the recorded navigations, so the region loop
simply continues with the next card. -/
theorem c3_quit_is_skip (cfg : Config) (db : List OrgRec) (env : CardEnv)
    (pcFuel : Nat)
    (h : (parse_card cfg.checkDate db env pcFuel).outcome = CardOutcome.quit) :
    (parse_card cfg.checkDate db env pcFuel).errorLogged = false ∧
    ∀ rid st, processCard cfg db rid pcFuel st env =
      { st with navs := st.navs ++ (parse_card cfg.checkDate db env pcFuel).navs } :=
  ⟨parse_card_quit_noError cfg.checkDate db env pcFuel h,
   fun rid st => processCard_quit cfg db rid pcFuel st env h⟩

/-- Witness for C3 at the concrete stale card. -/
theorem c3_quit_is_skip_witness :
    (parse_card cfgW.checkDate dbStale cardStale 1).outcome = CardOutcome.quit ∧
    (parse_card cfgW.checkDate dbStale cardStale 1).errorLogged = false ∧
    processCard cfgW dbStale 7 1 stW cardStale =
      { stW with navs := stW.navs ++ (parse_card cfgW.checkDate dbStale cardStale 1).navs } := by
  have hq : (parse_card cfgW.checkDate dbStale cardStale 1).outcome =
      CardOutcome.quit := by decide
  have h := c3_quit_is_skip cfgW dbStale cardStale 1 hq
  exact ⟨hq, h.1, h.2 7 stW⟩

/-- C4: a publications-page pagination run in which no visible entry
matches the target phrase and no load-more click increases the visible
count stops after one loop-body entry with no url, and the card then
resolves to status 1 (ACTIVE) with a null url; with the load-more control
absent or disabled the loop always stops within its first body entry. -/
theorem c4_pagination_termination (env : PopupEnv) (fuel : Nat)
    (hf : 1 ≤ fuel)
    (hnm : ∀ k, ∀ p ∈ env.pubsAt k, allPubMatch p = false)
    (hst : ∀ k, (env.pubsAt (k + 1)).length ≤ (env.pubsAt k).length) :
    paginationLoop env fuel 0 = (none, 1) ∧
    (∀ inn h2, inlineUrl env.inlinePubs = none → env.allInfoHref = some h2 →
      parseCardResolve env inn fuel =
        { outcome := CardOutcome.ret (some ⟨inn, 1, none⟩),
          navs := [NavEvent.popup, NavEvent.load (format_url h2 fedresursBase)],
          errorLogged := false }) ∧
    (∀ env2 : PopupEnv, ∀ f2 : Nat, 1 ≤ f2 → env2.buttonOk 0 = false →
      (paginationLoop env2 f2 0).2 = 1) := by
  obtain ⟨f, rfl⟩ : ∃ f, fuel = f + 1 := ⟨fuel - 1, by omega⟩
  have hmain : paginationLoop env (f + 1) 0 = (none, 1) := by
    simp only [paginationLoop, allPubsUrl_eq_none _ (hnm 0)]
    by_cases hb : env.buttonOk 0 = true
    · simp [hb, hst 0]
    · simp [bool_eq_false_of_not _ hb]
  refine ⟨hmain, ?_, ?_⟩
  · intro inn h2 hinl hall
    unfold parseCardResolve
    simp only [hinl, hall, hmain]
  · intro env2 f2 hf2 hb
    obtain ⟨g, rfl⟩ : ∃ g, f2 = g + 1 := ⟨f2 - 1, by omega⟩
    simp only [paginationLoop]
    rcases hu : allPubsUrl (env2.pubsAt 0) with _ | u
    · simp [hu, hb]
    · simp [hu]

/-- Witness for C4: a page that always shows one non-matching entry with a
load-more control that never adds entries, and a page with the control
unavailable. -/
theorem c4_pagination_termination_witness :
    paginationLoop envC4 2 0 = (none, 1) ∧
    parseCardResolve envC4 "123".toList 2 =
      { outcome := CardOutcome.ret (some ⟨"123".toList, 1, none⟩),
        navs := [NavEvent.popup,
          NavEvent.load (format_url "/pubs".toList fedresursBase)],
        errorLogged := false } ∧
    (paginationLoop popupEmpty 1 0).2 = 1 := by
  have h := c4_pagination_termination envC4 2 (by omega)
    (fun k p hp => by
      have hp2 := List.mem_singleton.mp hp
      subst hp2
      decide)
    (fun k => Nat.le_refl _)
  exact ⟨h.1, h.2.1 "123".toList "/pubs".toList (by decide) rfl,
    h.2.2 popupEmpty 1 (by omega) rfl⟩

/-- C5: within one region pass at most one Crawl Result is emitted and at
most one email dispatched per organization identifier, whatever cards the
pagination re-renders, and every pass begins from an empty dedup set. -/
theorem c5_region_dedup (cfg : Config) (db : List OrgRec)
    (regions : List RegionRec) (tasks : List RegionEnv) (fuel pcFuel : Nat)
    (out : Int × RoundState)
    (hmem : out ∈ parseRun cfg db regions tasks fuel pcFuel) :
    (out.2.emitted.map (fun e => e.1.inn)).Nodup ∧
    out.2.emails.Nodup ∧
    (initialRegionState cfg out.1).processed = [] := by
  obtain ⟨env, henv, rfl⟩ := List.mem_map.mp hmem
  have hinv : DedupInv (parseRegion cfg db regions env fuel pcFuel) := by
    unfold parseRegion
    split
    · exact ⟨List.nodup_nil, List.nodup_nil, by simp, by simp⟩
    · exact regionRounds_dedupInv cfg db env fuel pcFuel 0 _
        ⟨List.nodup_nil, List.nodup_nil, by simp [initialRegionState],
         by simp [initialRegionState]⟩
  exact ⟨hinv.1, hinv.2.1, rfl⟩

/-- Witness for C5 on a one-region, one-card run. -/
theorem c5_region_dedup_witness :
    (outW5.2.emitted.map (fun e => e.1.inn)).Nodup ∧
    outW5.2.emails.Nodup ∧
    (initialRegionState cfgW5 outW5.1).processed = [] := by
  have hmem : outW5 ∈ parseRun cfgW5 [] regionsW5 [envW5] 1 1 := by
    show outW5 ∈ [(envW5.regionId, parseRegion cfgW5 [] regionsW5 envW5 1 1)]
    exact List.mem_singleton.mpr rfl
  exact c5_region_dedup cfgW5 [] regionsW5 [envW5] 1 1 outW5 hmem

/-- C6: a card whose stripped procedural-status text is not exactly the
tracked label is dropped before any navigation: parse_card returns None
with an empty navigation trace and no error, and the orchestrator's card
step leaves the pass state untouched (zero Crawl Results). -/
theorem c6_eligibility_filter (cd : Bool) (db : List OrgRec) (env : CardEnv)
    (fuel : Nat) (h : pyStrip env.statusText ≠ targetLabel) :
    parse_card cd db env fuel =
      { outcome := CardOutcome.ret none, navs := [], errorLogged := false } ∧
    ∀ cfg : Config, ∀ rid pcFuel st, processCard cfg db rid pcFuel st env = st := by
  have key : ∀ cd2 f2, parse_card cd2 db env f2 =
      { outcome := CardOutcome.ret none, navs := [], errorLogged := false } := by
    intro cd2 f2
    unfold parse_card
    rw [if_pos h]
  refine ⟨key cd fuel, ?_⟩
  intro cfg rid pcFuel st
  simp only [processCard, key cfg.checkDate pcFuel, List.append_nil]

/-- Witness for C6 at a card in the observation stage. -/
theorem c6_eligibility_filter_witness :
    (pyStrip cardWrongStatus.statusText ≠ targetLabel) ∧
    parse_card true [] cardWrongStatus 1 =
      { outcome := CardOutcome.ret none, navs := [], errorLogged := false } ∧
    processCard cfgW [] 7 1 stW cardWrongStatus = stW := by
  have h := c6_eligibility_filter true [] cardWrongStatus 1 (by decide)
  exact ⟨by decide, h.1, h.2 cfgW 7 1 stW⟩

/-- C7 counterexample: identifier "0123" has a RESOLVED (status 0) cache
record and the card is eligible, yet parse_card opens the popup and
returns a result: get_organization looks the key up through int(inn),
which SQLite renders back as "123", missing the record. -/
theorem c7_skip_counterexample :
    dbLeadZero.find? (fun r => r.inn = pyStrip cardLeadZero.innText) =
      some ⟨"0123".toList, 0, none, 7, 20⟩ ∧
    pyStrip cardLeadZero.statusText = targetLabel ∧
    parse_card false dbLeadZero cardLeadZero 1 =
      { outcome := CardOutcome.ret (some ⟨"0123".toList, 1, none⟩),
        navs := [NavEvent.popup], errorLogged := false } := by
  refine ⟨by decide, by decide, by decide⟩

/-- C7 amended: for an eligible card whose stripped identifier text is the
canonical decimal form of its int() value, a RESOLVED cache record makes
parse_card return None with no navigation, while an ACTIVE record or a
missing record lets it proceed to open the popup. -/
theorem c7_cache_short_circuit (cd : Bool) (db : List OrgRec) (env : CardEnv)
    (fuel : Nat) (n : Int)
    (helig : pyStrip env.statusText = targetLabel)
    (hint : pyInt (pyStrip env.innText) = some n)
    (hcanon : intToStr n = pyStrip env.innText) :
    (∀ r : OrgRec, db.find? (fun x => x.inn = pyStrip env.innText) = some r →
        r.status = 0 →
      parse_card cd db env fuel =
        { outcome := CardOutcome.ret none, navs := [], errorLogged := false }) ∧
    ((∀ r : OrgRec, db.find? (fun x => x.inn = pyStrip env.innText) = some r →
        r.status ≠ 0) →
      NavEvent.popup ∈ (parse_card cd db env fuel).navs) := by
  have horg : get_organization db n =
      db.find? (fun x => x.inn = pyStrip env.innText) := by
    simp only [get_organization, hcanon]
  constructor
  · intro r hr hs
    have hhit : orgResolvedHit db n = true := by
      simp [orgResolvedHit, horg, hr, hs]
    unfold parse_card
    rw [if_neg (not_ne_iff.mpr helig)]
    simp only [hint, hhit, if_true]
  · intro hno
    have hhit : orgResolvedHit db n = false := by
      rcases hfind : db.find? (fun x => x.inn = pyStrip env.innText) with _ | r
      · simp [orgResolvedHit, horg, hfind]
      · simp [orgResolvedHit, horg, hfind, hno r hfind]
    unfold parse_card
    rw [if_neg (not_ne_iff.mpr helig)]
    simp only [hint, hhit, Bool.false_eq_true, if_false]
    exact popup_mem_parseCardPopup cd db env.popup (pyStrip env.innText) fuel

/-- Witness for C7 (amended form) at the canonical identifier "123". -/
theorem c7_cache_short_circuit_witness :
    (pyStrip cardCanon.statusText = targetLabel ∧
     pyInt (pyStrip cardCanon.innText) = some 123 ∧
     intToStr 123 = pyStrip cardCanon.innText) ∧
    parse_card true dbResolved cardCanon 1 =
      { outcome := CardOutcome.ret none, navs := [], errorLogged := false } ∧
    NavEvent.popup ∈ (parse_card true [] cardCanon 1).navs := by
  have h1 := c7_cache_short_circuit true dbResolved cardCanon 1 123
    (by decide) (by decide) (by decide)
  have h2 := c7_cache_short_circuit true [] cardCanon 1 123
    (by decide) (by decide) (by decide)
  exact ⟨⟨by decide, by decide, by decide⟩,
    h1.1 ⟨"123".toList, 0, none, 7, 20⟩ (by decide) rfl,
    h2.2 (fun r hr => nomatch hr)⟩

/-- C8: two consecutive load_page dispatches under a positive
request_interval are at least that interval apart: when less than the
interval elapsed since the previous dispatch the caller sleeps exactly the
remaining delta, and each call updates the one shared last_request_time
field to its own dispatch timestamp. -/
theorem c8_rate_limit (n lastBefore t1 t2 : ℚ) (hn : 0 < n)
    (hmono : (rateLimitStep n lastBefore t1).dispatch ≤ t2) :
    n ≤ (rateLimitStep n (rateLimitStep n lastBefore t1).newLast t2).dispatch -
        (rateLimitStep n lastBefore t1).dispatch ∧
    (t2 - (rateLimitStep n lastBefore t1).dispatch < n →
      (rateLimitStep n (rateLimitStep n lastBefore t1).newLast t2).sleep =
        n - (t2 - (rateLimitStep n lastBefore t1).dispatch)) ∧
    (rateLimitStep n lastBefore t1).newLast =
      (rateLimitStep n lastBefore t1).dispatch ∧
    (rateLimitStep n (rateLimitStep n lastBefore t1).newLast t2).newLast =
      (rateLimitStep n (rateLimitStep n lastBefore t1).newLast t2).dispatch := by
  have hd1 : (rateLimitStep n lastBefore t1).newLast =
      (rateLimitStep n lastBefore t1).dispatch := by
    unfold rateLimitStep
    rw [if_pos hn]
    split <;> rfl
  have hsecond : ∀ d1 : ℚ, d1 ≤ t2 →
      (n ≤ (rateLimitStep n d1 t2).dispatch - d1 ∧
       (t2 - d1 < n → (rateLimitStep n d1 t2).sleep = n - (t2 - d1)) ∧
       (rateLimitStep n d1 t2).newLast = (rateLimitStep n d1 t2).dispatch) := by
    intro d1 hle
    unfold rateLimitStep
    rw [if_pos hn]
    by_cases hlt : t2 - d1 < n
    · rw [if_pos hlt]
      refine ⟨?_, fun _ => rfl, rfl⟩
      show n ≤ t2 + (n - (t2 - d1)) - d1
      linarith
    · rw [if_neg hlt]
      refine ⟨?_, fun hc => absurd hc hlt, rfl⟩
      show n ≤ t2 - d1
      linarith [not_lt.mp hlt]
  have h2 := hsecond ((rateLimitStep n lastBefore t1).dispatch) hmono
  rw [hd1]
  exact ⟨h2.1, h2.2.1, rfl, h2.2.2⟩

/-- Witness for C8 with interval 5 and clock readings 100 and 102. -/
theorem c8_rate_limit_witness :
    (0 : ℚ) < 5 ∧ (rateLimitStep 5 0 100).dispatch ≤ 102 ∧
    (5 ≤ (rateLimitStep 5 (rateLimitStep 5 0 100).newLast 102).dispatch -
        (rateLimitStep 5 0 100).dispatch ∧
     ((102 : ℚ) - (rateLimitStep 5 0 100).dispatch < 5 →
       (rateLimitStep 5 (rateLimitStep 5 0 100).newLast 102).sleep =
         5 - (102 - (rateLimitStep 5 0 100).dispatch)) ∧
     (rateLimitStep 5 0 100).newLast = (rateLimitStep 5 0 100).dispatch ∧
     (rateLimitStep 5 (rateLimitStep 5 0 100).newLast 102).newLast =
       (rateLimitStep 5 (rateLimitStep 5 0 100).newLast 102).dispatch) :=
  ⟨by norm_num, by norm_num [rateLimitStep],
   c8_rate_limit 5 0 100 102 (by norm_num) (by norm_num [rateLimitStep])⟩
